import Mathlib

/-!
Verification development for the `python_terminal.py` interactive shell:
a shallow embedding of its command dispatch and safety-execution pipeline
(risk classifier, process executor, history handling, `rm` handler,
size formatter), with theorems settling the specification claims.

Python strings are modelled as `List Char`; the per-character
`str.lower` map is modelled on the ASCII range (all string constants the
program compares against are ASCII).
-/

namespace PyTerminal

/-- Whitespace per Python `str.strip()` / `str.split()` with no argument:
space, tab, newline, carriage return, vertical tab, form feed. -/
def isPySpace (c : Char) : Bool :=
  c == ' ' || c == '\t' || c == '\n' || c == '\r' || c == '\x0b' || c == '\x0c'

/-- Model of Python `str.lower` on one character, restricted to the ASCII
uppercase range (identity elsewhere). -/
def pyLowerChar : Char → Char
  | 'A' => 'a' | 'B' => 'b' | 'C' => 'c' | 'D' => 'd' | 'E' => 'e' | 'F' => 'f'
  | 'G' => 'g' | 'H' => 'h' | 'I' => 'i' | 'J' => 'j' | 'K' => 'k' | 'L' => 'l'
  | 'M' => 'm' | 'N' => 'n' | 'O' => 'o' | 'P' => 'p' | 'Q' => 'q' | 'R' => 'r'
  | 'S' => 's' | 'T' => 't' | 'U' => 'u' | 'V' => 'v' | 'W' => 'w' | 'X' => 'x'
  | 'Y' => 'y' | 'Z' => 'z'
  | c => c

/-- Python `str.lower` over a whole string. -/
def lowerList (s : List Char) : List Char := s.map pyLowerChar

/-- Python `str.strip()`: drop leading and trailing whitespace. -/
def pyStrip (s : List Char) : List Char :=
  ((s.dropWhile isPySpace).reverse.dropWhile isPySpace).reverse

/-- Python substring test `pat in s`. -/
def substrB (pat s : List Char) : Bool := decide (pat <:+: s)

/-- Lowering a character does not change whether it is whitespace. -/
theorem isPySpace_pyLowerChar (c : Char) : isPySpace (pyLowerChar c) = isPySpace c := by
  unfold pyLowerChar
  split <;> rfl

/-! ## Configuration (`DEFAULT_CONFIG`, `load_config`)

`config` is a dict whose keys are exactly those of `DEFAULT_CONFIG`
(`load_config` only copies keys present in `DEFAULT_CONFIG`), so it is
modelled as a record with those five fields.  In particular the key
`'command_timeout'` read by the duplicated second half of
`execute_command` is never present, so `config.get('command_timeout', 15)`
always yields the default `15`. -/

structure Config where
  prompt : String
  cmd_timeout : Nat
  save_history : Bool
  high_risk_commands : List String
  max_history_size : Nat
deriving DecidableEq

/-- `DEFAULT_CONFIG` from the source. -/
def DEFAULT_CONFIG : Config :=
  { prompt := "PS %dir%> "
    cmd_timeout := 15
    save_history := true
    high_risk_commands := ["rm -rf /", "format c:", "del *.* /q"]
    max_history_size := 1000 }

/-! ## Risk classifier (`is_high_risk_command`) -/

/-- The built-in `high_risk_patterns` list from `is_high_risk_command`. -/
def high_risk_patterns : List (List Char) :=
  ["rm -rf".data, "rm -r *".data, "sudo rm".data, "dd if=".data, "mkfs.".data,
   "del *".data, "rd /s /q".data, "format ".data, "rmdir /s /q".data, ">:".data]

/-- `is_high_risk_command(cmd)`: lowers and strips the command, then tests
the built-in patterns and the configured custom list as substrings. -/
def is_high_risk_command (config : Config) (cmd : String) : Bool :=
  let cmd_lower := pyStrip (lowerList cmd.data)
  high_risk_patterns.any (fun pattern => substrB pattern cmd_lower)
  || config.high_risk_commands.any (fun risk_cmd => substrB (lowerList risk_cmd.data) cmd_lower)

/-- `DEFAULT_CONFIG` with an empty custom high-risk list. -/
def emptyRiskConfig : Config := { DEFAULT_CONFIG with high_risk_commands := [] }

/-- Characterization of the classifier in terms of substring containment. -/
theorem is_high_risk_command_iff (config : Config) (cmd : String) :
    is_high_risk_command config cmd = true ↔
      ((∃ p ∈ high_risk_patterns, p <:+: pyStrip (lowerList cmd.data)) ∨
       (∃ r ∈ config.high_risk_commands, lowerList r.data <:+: pyStrip (lowerList cmd.data))) := by
  simp [is_high_risk_command, List.any_eq_true, substrB]

/-- C3, counterexample: the line `"echo format "` contains the built-in
fragment `"format "` as a substring, yet the classifier (with an empty
custom list) returns `false`, because the line is stripped of trailing
whitespace before matching. -/
theorem C3_counterexample :
    ("format ".data <:+: "echo format ".data) ∧
      is_high_risk_command emptyRiskConfig "echo format " = false := by
  constructor
  · decide
  · decide

/-- C3 (amended): matching is performed on the lower-cased,
whitespace-stripped line.  Any line whose stripped lower-cased form
contains one of `"rm -rf"`, `"format "`, `"dd if="`, `"del *"` is flagged;
any line whose stripped lower-cased form contains the lower-casing of a
configured custom entry is flagged; with an empty custom list, a line
whose stripped lower-cased form contains none of the built-in fragments
(e.g. `"ls -la"`) is not flagged. -/
theorem C3_high_risk_classifier (config : Config) (cmd : String) :
    ((∀ p ∈ [("rm -rf".data), ("format ".data), ("dd if=".data), ("del *".data)],
        p <:+: pyStrip (lowerList cmd.data) → is_high_risk_command config cmd = true)
     ∧ (∀ r ∈ config.high_risk_commands,
        lowerList r.data <:+: pyStrip (lowerList cmd.data) →
          is_high_risk_command config cmd = true)
     ∧ (config.high_risk_commands = [] →
        (∀ p ∈ high_risk_patterns, ¬ (p <:+: pyStrip (lowerList cmd.data))) →
          is_high_risk_command config cmd = false)) := by
  refine ⟨?_, ?_, ?_⟩
  · intro p hp hinf
    rw [is_high_risk_command_iff]
    refine Or.inl ⟨p, ?_, hinf⟩
    simp at hp
    rcases hp with h | h | h | h <;> (subst h; simp [high_risk_patterns])
  · intro r hr hinf
    rw [is_high_risk_command_iff]
    exact Or.inr ⟨r, hr, hinf⟩
  · intro hempty hnone
    rcases h : is_high_risk_command config cmd with _ | _
    · rfl
    · rw [is_high_risk_command_iff] at h
      rcases h with ⟨p, hp, hinf⟩ | ⟨r, hr, _⟩
      · exact absurd hinf (hnone p hp)
      · rw [hempty] at hr
        exact absurd hr (List.not_mem_nil r)

/-- Witness for `C3_high_risk_classifier` at concrete inputs. -/
theorem C3_high_risk_classifier_witness :
    is_high_risk_command DEFAULT_CONFIG "rm -rf /tmp/x" = true ∧
      is_high_risk_command emptyRiskConfig "ls -la" = false := by
  constructor
  · exact (C3_high_risk_classifier DEFAULT_CONFIG "rm -rf /tmp/x").1
      ("rm -rf".data) (by simp) (by decide)
  · exact (C3_high_risk_classifier emptyRiskConfig "ls -la").2.2 rfl (by decide)

/-! ## Size formatter (`get_readable_size`)

The source divides a byte count by the float `1024.0` at most five times.
For byte counts below 2^53 every intermediate float value is exact (a
division by a power of two only shifts the exponent), so the computation
is modelled exactly over `ℚ`.  `%.2f` formatting of the exact value is
round-half-to-even at two decimal places. -/

/-- Round a rational to the nearest integer, ties to even (the rounding
used by `%.2f` formatting on an exactly-represented value). -/
def roundHalfEven (q : ℚ) : ℤ :=
  let f := ⌊q⌋
  let r := q - f
  if r < 1/2 then f
  else if r > 1/2 then f + 1
  else if f % 2 = 0 then f else f + 1

/-- `f"{x:.2f}"` on an exactly-represented nonnegative value. -/
def format_2f (q : ℚ) : String :=
  let n := roundHalfEven (q * 100)
  let sign := if n < 0 then "-" else ""
  let a := n.natAbs
  sign ++ toString (a / 100) ++ "." ++ (if a % 100 < 10 then "0" else "") ++ toString (a % 100)

/-- The unit list iterated by `get_readable_size` (the final `"PB"` is the
fall-through return after the loop). -/
def size_units : List String := ["B", "KB", "MB", "GB", "TB"]

/-- The `for unit in [...]` loop body of `get_readable_size`. -/
def readable_size_go (s : ℚ) : List String → String
  | [] => format_2f s ++ " PB"
  | u :: rest => if s < 1024 then format_2f s ++ " " ++ u else readable_size_go (s / 1024) rest

/-- `get_readable_size(size_bytes)`: repeatedly divide by 1024 across the
units, printing with two decimal places. -/
def get_readable_size (size_bytes : ℚ) : String :=
  readable_size_go size_bytes size_units

/-- C9: the size formatter divides by 1024 across B, KB, MB, GB, TB, PB with
two decimal places; concretely 0 ↦ "0.00 B", 1536 ↦ "1.50 KB",
1073741824 ↦ "1.00 GB". -/
theorem C9_readable_size :
    get_readable_size 0 = "0.00 B" ∧
      get_readable_size 1536 = "1.50 KB" ∧
      get_readable_size 1073741824 = "1.00 GB" := by
  refine ⟨?_, ?_, ?_⟩ <;>
    norm_num [get_readable_size, readable_size_go, size_units, format_2f, roundHalfEven] <;>
    rfl

/-! ## Whitespace splitting (Python `str.split()` with no argument) -/

/-- Accumulator-based tokenizer: `acc` holds the current token reversed. -/
def pySplitAux : List Char → List Char → List (List Char)
  | [], acc => if acc = [] then [] else [acc.reverse]
  | c :: rest, acc =>
    if isPySpace c then
      if acc = [] then pySplitAux rest [] else acc.reverse :: pySplitAux rest []
    else pySplitAux rest (c :: acc)

/-- Python `s.split()`: split on whitespace runs, no empty tokens. -/
def pySplit (s : List Char) : List (List Char) := pySplitAux s []

theorem pySplitAux_map_lower (s acc : List Char) :
    pySplitAux (lowerList s) (lowerList acc) = (pySplitAux s acc).map lowerList := by
  induction s generalizing acc with
  | nil =>
    by_cases hacc : acc = []
    · subst hacc; rfl
    · have : lowerList acc ≠ [] := by
        simpa [lowerList] using hacc
      simp [pySplitAux, hacc, this, lowerList, List.map_reverse]
  | cons c rest ih =>
    by_cases hsp : isPySpace c
    · have hsp' : isPySpace (pyLowerChar c) := by rw [isPySpace_pyLowerChar]; exact hsp
      by_cases hacc : acc = []
      · subst hacc
        simpa [lowerList, pySplitAux, hsp, hsp'] using ih []
      · have hacc' : lowerList acc ≠ [] := by simpa [lowerList] using hacc
        simpa [lowerList, pySplitAux, hsp, hsp', hacc, hacc', List.map_reverse] using ih []
    · have hsp' : ¬ isPySpace (pyLowerChar c) := by rw [isPySpace_pyLowerChar]; exact hsp
      have := ih (c :: acc)
      simpa [lowerList, pySplitAux, hsp, hsp'] using this

/-- Lowering commutes with whitespace splitting. -/
theorem pySplit_lower (s : List Char) :
    pySplit (lowerList s) = (pySplit s).map lowerList := by
  simpa [pySplit, lowerList] using pySplitAux_map_lower s []

theorem pySplitAux_all_space (w : List Char) (acc : List Char)
    (hw : ∀ c ∈ w, isPySpace c) :
    pySplitAux w acc = pySplitAux [] acc := by
  induction w generalizing acc with
  | nil => rfl
  | cons c w' ih =>
    have hc : isPySpace c := hw c (by simp)
    have hw' : ∀ c ∈ w', isPySpace c := fun d hd => hw d (by simp [hd])
    by_cases hacc : acc = []
    · subst hacc
      simp [pySplitAux, hc, ih [] hw']
    · simp [pySplitAux, hc, hacc, ih [] hw']

theorem pySplitAux_append_space (s w acc : List Char)
    (hw : ∀ c ∈ w, isPySpace c) :
    pySplitAux (s ++ w) acc = pySplitAux s acc := by
  induction s generalizing acc with
  | nil => simpa using pySplitAux_all_space w acc hw
  | cons c rest ih =>
    by_cases hsp : isPySpace c
    · by_cases hacc : acc = []
      · subst hacc; simp [pySplitAux, hsp, ih]
      · simp [pySplitAux, hsp, hacc, ih]
    · simp [pySplitAux, hsp, ih]

theorem pySplitAux_dropWhile (s : List Char) :
    pySplitAux (s.dropWhile isPySpace) [] = pySplitAux s [] := by
  induction s with
  | nil => rfl
  | cons c rest ih =>
    by_cases hsp : isPySpace c
    · simpa [List.dropWhile_cons, hsp, pySplitAux] using ih
    · simp [List.dropWhile_cons, hsp]

/-- Stripping surrounding whitespace does not change the token list. -/
theorem pySplit_pyStrip (s : List Char) : pySplit (pyStrip s) = pySplit s := by
  unfold pySplit pyStrip
  set t := s.dropWhile isPySpace with ht
  have hdecomp : t = (t.reverse.dropWhile isPySpace).reverse ++
      (t.reverse.takeWhile isPySpace).reverse := by
    calc t = t.reverse.reverse := (List.reverse_reverse t).symm
      _ = (t.reverse.takeWhile isPySpace ++ t.reverse.dropWhile isPySpace).reverse := by
          rw [List.takeWhile_append_dropWhile]
      _ = (t.reverse.dropWhile isPySpace).reverse ++ (t.reverse.takeWhile isPySpace).reverse := by
          rw [List.reverse_append]
  have hw : ∀ c ∈ (t.reverse.takeWhile isPySpace).reverse, isPySpace c := by
    intro c hc
    rw [List.mem_reverse] at hc
    exact List.mem_takeWhile_imp hc
  calc pySplitAux (t.reverse.dropWhile isPySpace).reverse []
      = pySplitAux ((t.reverse.dropWhile isPySpace).reverse ++
          (t.reverse.takeWhile isPySpace).reverse) [] :=
        (pySplitAux_append_space _ _ [] hw).symm
    _ = pySplitAux t [] := by rw [← hdecomp]
    _ = pySplitAux s [] := pySplitAux_dropWhile s

/-- An all-whitespace string strips to the empty string. -/
theorem pyStrip_eq_nil (s : List Char) (hs : ∀ c ∈ s, isPySpace c) :
    pyStrip s = [] := by
  unfold pyStrip
  rw [List.dropWhile_eq_nil_iff.mpr fun c hc => hs c hc]
  rfl

/-! ## History recording (`process_single_command`, lines 813-818)

Non-empty commands are appended to `command_history`; if the two last
entries then coincide, the freshly appended duplicate is popped. -/

def history_step (command_history : List String) (command : String) : List String :=
  if pyStrip command.data = [] then command_history
  else if 1 < (command_history ++ [command]).length ∧
      (command_history ++ [command]).getLast? =
        (command_history ++ [command])[(command_history ++ [command]).length - 2]?
  then (command_history ++ [command]).dropLast
  else command_history ++ [command]

/-- The second-to-last element of `h ++ [c]` is the last element of `h`. -/
theorem concat_getElem?_pred (h : List String) (c : String) (hne : h ≠ []) :
    (h ++ [c])[(h ++ [c]).length - 2]? = h.getLast? := by
  have hlen : 0 < h.length := List.length_pos.mpr hne
  have h2 : (h ++ [c]).length - 2 = h.length - 1 := by
    simp [List.length_append]
  rw [h2, List.getElem?_append_left (by omega), ← List.getLast?_eq_getElem?]

/-- Appending a command equal to the current last entry is a no-op. -/
theorem history_step_last (h : List String) (c : String)
    (hlast : h.getLast? = some c) : history_step h c = h := by
  have hne : h ≠ [] := by
    intro h0; rw [h0] at hlast; simp at hlast
  have hlen : 0 < h.length := List.length_pos.mpr hne
  unfold history_step
  by_cases hstrip : pyStrip c.data = []
  · rw [if_pos hstrip]
  · rw [if_neg hstrip, if_pos, List.dropLast_concat]
    constructor
    · simp only [List.length_append, List.length_cons, List.length_nil]
      omega
    · rw [List.getLast?_concat, concat_getElem?_pred h c hne, hlast]

/-- Appending a non-blank command different from the current last entry
extends the history by that command. -/
theorem history_step_append (h : List String) (c : String)
    (hstrip : pyStrip c.data ≠ [])
    (hlast : h.getLast? ≠ some c) : history_step h c = h ++ [c] := by
  unfold history_step
  rw [if_neg hstrip, if_neg]
  rintro ⟨hlen, heq⟩
  have hne : h ≠ [] := by
    intro h0; subst h0; simp at hlen
  rw [List.getLast?_concat, concat_getElem?_pred h c hne] at heq
  exact hlast heq.symm

/-- Each history update preserves freedom from consecutive duplicates. -/
theorem history_step_chain (h : List String) (c : String)
    (hch : List.Chain' (· ≠ ·) h) : List.Chain' (· ≠ ·) (history_step h c) := by
  unfold history_step
  by_cases hstrip : pyStrip c.data = []
  · rw [if_pos hstrip]; exact hch
  · rw [if_neg hstrip]
    by_cases hcond : 1 < (h ++ [c]).length ∧
        (h ++ [c]).getLast? = (h ++ [c])[(h ++ [c]).length - 2]?
    · rw [if_pos hcond, List.dropLast_concat]
      exact hch
    · rw [if_neg hcond]
      by_cases hne : h = []
      · subst hne; simp
      · have hlen : 1 < (h ++ [c]).length := by
          have := List.length_pos.mpr hne
          simp only [List.length_append, List.length_cons, List.length_nil]
          omega
        have hne2 : (h ++ [c]).getLast? ≠ (h ++ [c])[(h ++ [c]).length - 2]? :=
          fun heq => hcond ⟨hlen, heq⟩
        rw [List.getLast?_concat, concat_getElem?_pred h c hne] at hne2
        rw [List.chain'_append]
        refine ⟨hch, List.chain'_singleton c, ?_⟩
        intro y hy z hz
        simp only [List.head?_cons, Option.mem_def, Option.some.injEq] at hz
        subst hz
        rw [Option.mem_def] at hy
        intro hyz
        subst hyz
        exact hne2 hy.symm

/-- Processing any sequence of commands from a duplicate-free history
leaves the history duplicate-free. -/
theorem history_foldl_chain (cmds : List String) (h : List String)
    (hch : List.Chain' (· ≠ ·) h) :
    List.Chain' (· ≠ ·) (List.foldl history_step h cmds) := by
  induction cmds generalizing h with
  | nil => exact hch
  | cons c rest ih => exact ih _ (history_step_chain h c hch)

/-! ## Command registry and dispatcher (`register_all_commands`,
`handle_kali_tool`, `process_single_command`)

Handlers operate on the OS (directories, files, screen); the dispatcher
model records which handler was selected and the continue/stop boolean it
returns.  Every registered non-simulated-tool handler reached through the
registry returns `True` in the source (`exit`/`quit` are intercepted
before the registry lookup), so only `handle_kali_tool`, whose boolean
result depends on the command, is modelled in detail. -/

/-- The keys registered by `register_all_commands`. -/
def registry_keys : List (List Char) :=
  ["cd".data, "dir".data, "mkdir".data, "rm".data, "cp".data, "exit".data, "quit".data,
   "help".data, "cls".data, "clear".data, "pwd".data,
   "kali_tools".data, "nmap".data, "metasploit".data, "burpsuite".data, "wireshark".data,
   "john".data, "aircrack-ng".data, "sqlmap".data, "hydra".data, "nikto".data, "gobuster".data]

/-- The keys of the `kali_tools` info dictionary in `handle_kali_tool`. -/
def kali_tool_names : List (List Char) :=
  ["nmap".data, "metasploit".data, "burpsuite".data, "wireshark".data, "john".data,
   "aircrack-ng".data, "sqlmap".data, "hydra".data, "nikto".data, "gobuster".data]

/-- The registry keys bound to `handle_kali_tool`. -/
def kali_keys : List (List Char) := "kali_tools".data :: kali_tool_names

/-- `handle_kali_tool(command)`: prints static tool descriptions and
returns `True` for `kali_tools` and the known tool names, `False`
otherwise.  `tool_name = command.split()[0] if command else ''`; `none`
models the `IndexError` raised when `command` is non-empty but
whitespace-only (unreachable from the dispatcher). -/
def handle_kali_tool (command : String) : Option Bool :=
  if command.data = [] then some false
  else
    match pySplit command.data with
    | [] => none
    | tool_name :: _ =>
      if tool_name = "kali_tools".data then some true
      else if tool_name ∈ kali_tool_names then some true
      else some false

/-- Which way a dispatched line was routed. -/
inductive DispatchAction where
  | builtin (key : List Char)
  | exitCmd
  | emptyNoop
  | external
deriving DecidableEq

/-- Observable result of `process_single_command`: the returned
continue/stop boolean, the updated `command_history`, and the route. -/
structure DispatchResult where
  cont : Bool
  history : List String
  action : DispatchAction
deriving DecidableEq

/-- `process_single_command(command)`: record history, extract the
lower-cased first token, intercept `exit`/`quit`, skip empty keys, then
dispatch through the registry (external commands go to
`execute_command`).  `none` models an uncaught exception. -/
def process_single_command (command_history : List String) (command : String) :
    Option DispatchResult :=
  let h := history_step command_history command
  let cmd_parts := pySplit (pyStrip (lowerList command.data))
  let cmd_key := cmd_parts.headD []
  if cmd_key = "exit".data ∨ cmd_key = "quit".data then some ⟨false, h, .exitCmd⟩
  else if cmd_key = [] then some ⟨true, h, .emptyNoop⟩
  else if cmd_key ∈ registry_keys then
    if cmd_key ∈ kali_keys then
      match handle_kali_tool command with
      | some b => some ⟨b, h, .builtin cmd_key⟩
      | none => none
    else some ⟨true, h, .builtin cmd_key⟩
  else some ⟨true, h, .external⟩

/-- C7: an empty or whitespace-only input line yields "continue" and
leaves the command history untouched. -/
theorem C7_blank_input_noop (command_history : List String) (command : String)
    (hw : ∀ c ∈ command.data, isPySpace c) :
    process_single_command command_history command =
      some ⟨true, command_history, DispatchAction.emptyNoop⟩ := by
  have hstrip : pyStrip command.data = [] := pyStrip_eq_nil _ hw
  have hlower : ∀ c ∈ lowerList command.data, isPySpace c := by
    intro c hc
    rw [lowerList, List.mem_map] at hc
    obtain ⟨d, hd, rfl⟩ := hc
    rw [isPySpace_pyLowerChar]
    exact hw d hd
  have hstrip' : pyStrip (lowerList command.data) = [] := pyStrip_eq_nil _ hlower
  unfold process_single_command history_step
  rw [hstrip, hstrip']
  simp [pySplit, pySplitAux]

/-- Witness for `C7_blank_input_noop` at a concrete blank line. -/
theorem C7_blank_input_noop_witness :
    process_single_command ["ls"] "  " =
      some ⟨true, ["ls"], DispatchAction.emptyNoop⟩ :=
  C7_blank_input_noop ["ls"] "  " (by decide)

/-- C6: (i) dispatching any sequence of commands from an empty history
never produces two consecutive identical history entries; (ii) a command
equal to the current last entry leaves the history unchanged; (iii) two
occurrences of `a` separated by a different command `b` both remain. -/
theorem C6_history_dedup (cmds : List String) (h h' : List String) (a b c : String)
    (hab : a ≠ b)
    (ha : pyStrip a.data ≠ []) (hb : pyStrip b.data ≠ [])
    (hlast : h.getLast? ≠ some a)
    (hlast' : h'.getLast? = some c) :
    List.Chain' (· ≠ ·) (List.foldl history_step [] cmds)
    ∧ history_step h' c = h'
    ∧ List.foldl history_step h [a, b, a] = h ++ [a, b, a] := by
  refine ⟨history_foldl_chain cmds [] (by simp), history_step_last h' c hlast', ?_⟩
  have s1 : history_step h a = h ++ [a] := history_step_append h a ha hlast
  have s2 : history_step (h ++ [a]) b = h ++ [a, b] := by
    rw [history_step_append (h ++ [a]) b hb]
    · simp
    · rw [List.getLast?_concat]
      simp [hab]
  have s3 : history_step (h ++ [a, b]) a = h ++ [a, b, a] := by
    have : h ++ [a, b] = (h ++ [a]) ++ [b] := by simp
    rw [this, history_step_append ((h ++ [a]) ++ [b]) a ha]
    · simp
    · rw [List.getLast?_concat]
      simp [hab.symm]
  simp only [List.foldl_cons, List.foldl_nil, s1, s2, s3]

/-- Witness for `C6_history_dedup` at concrete inputs. -/
theorem C6_history_dedup_witness :
    List.Chain' (· ≠ ·) (List.foldl history_step [] ["ls", "ls", "pwd"])
    ∧ history_step ["cd /tmp"] "cd /tmp" = ["cd /tmp"]
    ∧ List.foldl history_step [] ["ls", "pwd", "ls"] = [] ++ ["ls", "pwd", "ls"] :=
  C6_history_dedup ["ls", "ls", "pwd"] [] ["cd /tmp"] "ls" "pwd" "cd /tmp"
    (by decide) (by decide) (by decide) (by decide) (by decide)

/-- C10, counterexample: the line `"NMAP"` has first token case-folding to
the registered keyword `nmap`, so it is routed to the simulated-tool
handler, but `handle_kali_tool` looks up the raw (non-lowered) token,
finds nothing, and returns `False` — so dispatch reports "stop", not
"continue" (the spec-level claim says it returns true). -/
theorem C10_counterexample :
    process_single_command [] "NMAP" =
      some ⟨false, ["NMAP"], DispatchAction.builtin ("nmap".data)⟩ := by
  decide

/-- Every simulated-tool key differs from `exit`, `quit` and the empty
key, and is registered. -/
theorem kali_key_facts :
    ∀ k ∈ kali_keys,
      k ≠ "exit".data ∧ k ≠ "quit".data ∧ k ≠ [] ∧ k ∈ registry_keys := by
  decide

/-- C10 (amended): a line whose first whitespace-delimited token
case-folds to a registered simulated-tool keyword is always routed to the
simulated-tool builtin (never to the risk classifier or the external
process executor), but dispatch returns "continue" only when the raw
token is exactly the (lowercase) keyword; a token that only case-folds to
the keyword (e.g. `NMAP`) makes `handle_kali_tool` return `False` and the
session stops. -/
theorem C10_kali_tool_dispatch (command_history : List String) (command : String)
    (tok : List Char)
    (htok : tok = (pySplit command.data).headD [])
    (hmem : lowerList tok ∈ kali_keys) :
    process_single_command command_history command =
      some ⟨decide (tok ∈ kali_keys), history_step command_history command,
        DispatchAction.builtin (lowerList tok)⟩ := by
  rcases hsplit : pySplit command.data with _ | ⟨t, rest⟩
  · rw [hsplit] at htok
    simp only [List.headD_nil] at htok
    subst htok
    simp only [lowerList, List.map_nil] at hmem
    exact absurd hmem (by decide)
  · rw [hsplit] at htok
    simp only [List.headD_cons] at htok
    subst htok
    have hf := kali_key_facts (lowerList tok) hmem
    have hcmdne : command.data ≠ [] := by
      intro h0
      rw [h0] at hsplit
      simp [pySplit, pySplitAux] at hsplit
    have hkey : pySplit (pyStrip (lowerList command.data)) =
        lowerList tok :: rest.map lowerList := by
      rw [pySplit_pyStrip, pySplit_lower, hsplit]
      rfl
    have hhandle : handle_kali_tool command = some (decide (tok ∈ kali_keys)) := by
      unfold handle_kali_tool
      rw [if_neg hcmdne, hsplit]
      by_cases h1 : tok = "kali_tools".data
      · simp [h1, kali_keys]
      · by_cases h2 : tok ∈ kali_tool_names
        · simp [h1, h2, kali_keys]
        · simp [h1, h2, kali_keys]
    simp only [process_single_command, hkey, List.headD_cons]
    rw [if_neg (not_or.mpr ⟨hf.1, hf.2.1⟩), if_neg hf.2.2.1, if_pos hf.2.2.2,
      if_pos hmem, hhandle]

/-- Witness for `C10_kali_tool_dispatch` at a concrete lowercase tool line. -/
theorem C10_kali_tool_dispatch_witness :
    process_single_command [] "nmap -sV 192.168.1.1" =
      some ⟨true, ["nmap -sV 192.168.1.1"], DispatchAction.builtin ("nmap".data)⟩ := by
  rw [C10_kali_tool_dispatch [] "nmap -sV 192.168.1.1" ("nmap".data) (by decide) (by decide)]
  decide

/-! ## Process executor (`execute_command`)

`execute_command`'s body appears TWICE in the source (the second copy
starts with a stray duplicated docstring at line 266 and is still inside
the same function), so a confirmed command is risk-checked, confirmed and
run twice in sequence.  The first copy reads the timeout from
`config.get('cmd_timeout', 15)`; the duplicated second copy reads
`config.get('command_timeout', 15)` — a key that is never present — so it
always uses `15`.

The OS is an oracle: `child i` describes what the `i`-th `subprocess.run`
call does (how long the child runs and what it prints, or which exception
the spawn raises).  Every observable step is recorded as an event. -/

/-- Behavior of one `subprocess.run` call. -/
inductive SpawnBehavior where
  | runs (duration : Nat) (out err : String)
  | raisesPermission
  | raisesNotFound
  | raisesOS (msg : String)
  | raisesOther (msg : String)
deriving DecidableEq

/-- Platform / OS oracle for `execute_command`. -/
structure ExecEnv where
  isWindows : Bool
  shlexOk : Bool
  child : Nat → SpawnBehavior

/-- Observable steps of `execute_command`. -/
inductive ExecEvent where
  | spawn (viaShell : Bool) (timeoutBound : Nat)
  | printOut (s : String)
  | printErr (s : String)
  | promptConfirm
deriving DecidableEq

/-- The `TimeoutExpired` message (reports the timeout bound in use). -/
def timeout_msg (cmd : String) (timeout : Nat) : String :=
  "错误: 命令 '" ++ cmd ++ "' 执行超时（已超过" ++ toString timeout ++
    "秒），可能是无限循环命令，请检查参数"

/-- The `PermissionError` message. -/
def permission_msg (cmd : String) : String :=
  "错误: 权限不足，无法执行命令 '" ++ cmd ++ "'（请尝试以管理员/root身份运行）"

/-- The `FileNotFoundError` message. -/
def notfound_msg (cmd : String) : String :=
  "错误: 命令 '" ++ cmd ++ "' 未找到（检查命令是否拼写正确或已安装）"

/-- The `OSError` message. -/
def oserror_msg (cmd msg : String) : String :=
  "系统错误: " ++ msg ++ "（执行'" ++ cmd ++ "'时发生）"

/-- The catch-all exception message (the source does not include the
command in it). -/
def unknown_msg (msg : String) : String :=
  "执行命令时出错: " ++ msg ++ "（详细错误信息）"

/-- Message printed when the high-risk confirmation is declined. -/
def exec_cancel_msg : String := "命令已取消执行"

/-- One `try: subprocess.run ... except ...` block of `execute_command`:
one spawn (shell-interpreted on Windows or when `shlex.split` fails,
argument-vector otherwise), then the captured output or the handled
exception message. -/
def exec_attempt (cmd : String) (timeout : Nat) (env : ExecEnv) (b : SpawnBehavior) :
    List ExecEvent :=
  ExecEvent.spawn (env.isWindows || !env.shlexOk) timeout ::
  match b with
  | .runs d out err =>
    if timeout < d then [ExecEvent.printErr (timeout_msg cmd timeout)]
    else (if out ≠ "" then [ExecEvent.printOut out] else [])
      ++ (if err ≠ "" then [ExecEvent.printErr err] else [])
  | .raisesPermission => [ExecEvent.printErr (permission_msg cmd)]
  | .raisesNotFound => [ExecEvent.printErr (notfound_msg cmd)]
  | .raisesOS m => [ExecEvent.printErr (oserror_msg cmd m)]
  | .raisesOther m => [ExecEvent.printErr (unknown_msg m)]

/-- The high-risk confirmation gate at the top of (each copy of) the
body: returns the emitted events and whether execution proceeds. -/
def confirm_gate (highRisk : Bool) (answer : String) : List ExecEvent × Bool :=
  if highRisk then
    if lowerList answer.data = "y".data then ([ExecEvent.promptConfirm], true)
    else ([ExecEvent.promptConfirm, ExecEvent.printOut exec_cancel_msg], false)
  else ([], true)

/-- `execute_command(cmd)` with its duplicated body: gate, attempt with
`cmd_timeout`, gate again, attempt again with the constant `15` (the
second copy's `config.get('command_timeout', 15)` on a config that never
holds that key). -/
def execute_command (cmd : String) (config : Config) (env : ExecEnv)
    (ans1 ans2 : String) : List ExecEvent :=
  let gate1 := confirm_gate (is_high_risk_command config cmd) ans1
  if gate1.2 = false then gate1.1
  else
    let events1 := exec_attempt cmd config.cmd_timeout env (env.child 0)
    let gate2 := confirm_gate (is_high_risk_command config cmd) ans2
    if gate2.2 = false then gate1.1 ++ events1 ++ gate2.1
    else gate1.1 ++ events1 ++ gate2.1 ++ exec_attempt cmd 15 env (env.child 1)

/-- Number of `subprocess.run` calls in an event trace. -/
def countSpawns (events : List ExecEvent) : Nat :=
  events.countP (fun e => match e with | .spawn _ _ => true | _ => false)

/-- A POSIX environment whose every spawned child finishes instantly and
prints `hi` on stdout. -/
def echoEnv : ExecEnv :=
  { isWindows := false, shlexOk := true, child := fun _ => .runs 0 "hi\n" "" }

/-- C1: evaluating `execute_command` on the non-high-risk line `echo hi`
(child completes instantly printing `hi`): the duplicated body spawns TWO
child processes and prints the captured stdout TWICE, contradicting
"exactly one child process / one outcome printed once". -/
theorem C1_duplicate_execution :
    execute_command "echo hi" DEFAULT_CONFIG echoEnv "y" "y" =
      [ExecEvent.spawn false 15, ExecEvent.printOut "hi\n",
       ExecEvent.spawn false 15, ExecEvent.printOut "hi\n"]
    ∧ countSpawns (execute_command "echo hi" DEFAULT_CONFIG echoEnv "y" "y") = 2 := by
  constructor
  · decide
  · decide

/-- `DEFAULT_CONFIG` with the command timeout configured to 1 second. -/
def timeout1Config : Config := { DEFAULT_CONFIG with cmd_timeout := 1 }

/-- A POSIX environment whose every spawned child runs for 5 seconds with
no output. -/
def sleepEnv : ExecEnv :=
  { isWindows := false, shlexOk := true, child := fun _ => .runs 5 "" "" }

/-- C2: with `cmd_timeout = 1` and a child sleeping 5 seconds, the first
execution times out and its message contains the configured bound `1`,
but the duplicated second copy re-spawns the child with bound `15` (its
`config.get('command_timeout', 15)` key is never present), and that
second child — which also exceeds the configured 1-second bound — runs to
completion with no Timeout signalled. -/
theorem C2_second_spawn_ignores_timeout :
    execute_command "sleep 5" timeout1Config sleepEnv "y" "y" =
      [ExecEvent.spawn false 1, ExecEvent.printErr (timeout_msg "sleep 5" 1),
       ExecEvent.spawn false 15]
    ∧ substrB (toString 1).data (timeout_msg "sleep 5" 1).data = true := by
  constructor
  · decide
  · decide

/-! ## History persistence (`save_history`, lines 962-981)

The live `save_history` (the second definition of that name; the first,
`readline`-based one is shadowed) writes `command_history[-500:]` to the
history file — a hard-coded cap of 500 entries, independent of the
configured `max_history_size`. -/

/-- The lines written by `save_history`: the last 500 history entries. -/
def save_history_lines (command_history : List String) : List String :=
  command_history.drop (command_history.length - 500)

/-- Config with `max_history_size = 2`. -/
def maxTwoConfig : Config := { DEFAULT_CONFIG with max_history_size := 2 }

/-- C8, counterexample: with `max_history_size = 2` and three commands in
memory, `save_history` persists all three entries — more than the
configured maximum. -/
theorem C8_counterexample :
    maxTwoConfig.max_history_size < (save_history_lines ["ls", "pwd", "cd /tmp"]).length := by
  decide

/-- C8 (amended): the persisted history contains at most 500 entries (a
hard-coded cap); it is bounded by the configured `max_history_size` only
when that maximum is at least 500 (as with the default 1000). -/
theorem C8_save_history_cap (command_history : List String) (config : Config)
    (hcap : 500 ≤ config.max_history_size) :
    (save_history_lines command_history).length ≤ 500 ∧
      (save_history_lines command_history).length ≤ config.max_history_size := by
  have h1 : (save_history_lines command_history).length ≤ 500 := by
    simp only [save_history_lines, List.length_drop]
    omega
  exact ⟨h1, le_trans h1 hcap⟩

/-- Witness for `C8_save_history_cap` at a concrete history and the
default configuration. -/
theorem C8_save_history_cap_witness :
    (save_history_lines ["ls"]).length ≤ 500 ∧
      (save_history_lines ["ls"]).length ≤ DEFAULT_CONFIG.max_history_size :=
  C8_save_history_cap ["ls"] DEFAULT_CONFIG (by decide)

/-! ## `rm` handler (`handle_rm`)

The filesystem is an oracle (`FS`); every prompt, message and deletion
call is recorded as an event, in source order. -/

/-- Boolean prefix test on character lists. -/
def isPrefixB : List Char → List Char → Bool
  | [], _ => true
  | _ :: _, [] => false
  | a :: as, b :: bs => a == b && isPrefixB as bs

/-- Python `s.replace(pat, sub)` (left-to-right, non-overlapping), with a
fuel parameter for structural recursion; `pyReplace` supplies fuel
`s.length`, which always suffices because every step consumes at least
one character.  (Only used with the non-empty pattern `"-r"`.) -/
def pyReplaceAux (pat sub : List Char) : Nat → List Char → List Char
  | _, [] => []
  | 0, s => s
  | Nat.succ fuel, c :: rest =>
    if pat ≠ [] ∧ isPrefixB pat (c :: rest) then
      sub ++ pyReplaceAux pat sub fuel ((c :: rest).drop pat.length)
    else c :: pyReplaceAux pat sub fuel rest

/-- Python `s.replace(pat, sub)`. -/
def pyReplace (pat sub s : List Char) : List Char := pyReplaceAux pat sub s.length s

/-- Result of a `shutil.rmtree` / `os.remove` call. -/
inductive DelOutcome where
  | ok
  | permDenied
  | failed (msg : String)
deriving DecidableEq

/-- Filesystem oracle: `os.path.isdir`, `os.path.isfile`,
`os.path.exists`, and the outcomes of the two deletion primitives. -/
structure FS where
  isDir : List Char → Bool
  isFile : List Char → Bool
  pathExists : List Char → Bool
  rmtree : List Char → DelOutcome
  remove : List Char → DelOutcome

/-- Observable steps of `handle_rm`, in source order. -/
inductive RmEvent where
  | errNoTarget
  | promptHighRisk
  | msgHighRiskCancelled
  | errDirNotFound (t : List Char)
  | errFileNotFound (t : List Char)
  | msgAutoConfirm (t : List Char)
  | promptDeleteDir (t : List Char)
  | promptDeleteFile (t : List Char)
  | msgCancelled
  | deleteTree (t : List Char)
  | deleteFile (t : List Char)
  | msgDirDeleted (t : List Char)
  | msgFileDeleted (t : List Char)
  | errDeletePermission (t : List Char)
  | errDeleteFailed (t : List Char) (msg : String)
deriving DecidableEq

/-- `target = command[3:].strip()`. -/
def rm_target (command : String) : List Char := pyStrip (command.data.drop 3)

/-- The high-risk sub-pattern test on the lower-cased full line
(`"-rf"`, `"-r *"`, `"rd /s"`, `"rmdir /s"`). -/
def rm_high_risk_pattern (command : String) : Bool :=
  substrB "-rf".data (lowerList command.data)
  || substrB "-r *".data (lowerList command.data)
  || substrB "rd /s".data (lowerList command.data)
  || substrB "rmdir /s".data (lowerList command.data)

/-- The path passed to directory deletion:
`target.replace("-r", "").strip()`. -/
def rm_dir_target (command : String) : List Char :=
  pyStrip (pyReplace ("-r".data) [] (rm_target command))

/-- The high-risk confirmation gate (lines 633-640): events emitted and
whether execution proceeds.  With auto-confirm the answer is forced to
`'y'` without prompting. -/
def rm_gate (highRiskPattern autoYes : Bool) (answer : String) : List RmEvent × Bool :=
  if highRiskPattern then
    if autoYes then ([], true)
    else if lowerList answer.data = "y".data then ([RmEvent.promptHighRisk], true)
    else ([RmEvent.promptHighRisk, RmEvent.msgHighRiskCancelled], false)
  else ([], true)

/-- The per-directory confirmation (lines 650-657). -/
def rm_confirm_dir (autoYes : Bool) (t : List Char) (answer : String) :
    List RmEvent × Bool :=
  if autoYes then ([RmEvent.msgAutoConfirm t], true)
  else if lowerList answer.data = "y".data then ([RmEvent.promptDeleteDir t], true)
  else ([RmEvent.promptDeleteDir t], false)

/-- The per-file confirmation (lines 670-677). -/
def rm_confirm_file (autoYes : Bool) (t : List Char) (answer : String) :
    List RmEvent × Bool :=
  if autoYes then ([RmEvent.msgAutoConfirm t], true)
  else if lowerList answer.data = "y".data then ([RmEvent.promptDeleteFile t], true)
  else ([RmEvent.promptDeleteFile t], false)

/-- Lines 642-685: directory mode iff the target is a directory or the
substring `-r` occurs anywhere in the raw line; then existence check,
confirmation, deletion. -/
def rm_body (command : String) (autoYes : Bool) (fs : FS) (delAnswer : String) :
    List RmEvent :=
  if fs.isDir (rm_target command) || substrB "-r".data command.data then
    if fs.pathExists (rm_dir_target command) = false then
      [RmEvent.errDirNotFound (rm_dir_target command)]
    else if (rm_confirm_dir autoYes (rm_dir_target command) delAnswer).2 = false then
      (rm_confirm_dir autoYes (rm_dir_target command) delAnswer).1 ++ [RmEvent.msgCancelled]
    else
      (rm_confirm_dir autoYes (rm_dir_target command) delAnswer).1 ++
        [RmEvent.deleteTree (rm_dir_target command)] ++
        (match fs.rmtree (rm_dir_target command) with
         | .ok => [RmEvent.msgDirDeleted (rm_dir_target command)]
         | .permDenied => [RmEvent.errDeletePermission (rm_dir_target command)]
         | .failed m => [RmEvent.errDeleteFailed (rm_dir_target command) m])
  else
    if fs.isFile (rm_target command) = false then
      [RmEvent.errFileNotFound (rm_target command)]
    else if (rm_confirm_file autoYes (rm_target command) delAnswer).2 = false then
      (rm_confirm_file autoYes (rm_target command) delAnswer).1 ++ [RmEvent.msgCancelled]
    else
      (rm_confirm_file autoYes (rm_target command) delAnswer).1 ++
        [RmEvent.deleteFile (rm_target command)] ++
        (match fs.remove (rm_target command) with
         | .ok => [RmEvent.msgFileDeleted (rm_target command)]
         | .permDenied => [RmEvent.errDeletePermission (rm_target command)]
         | .failed m => [RmEvent.errDeleteFailed (rm_target command) m])

/-- `handle_rm(command, auto_confirm)`: empty-target check, high-risk
gate, then the directory/file deletion body. -/
def handle_rm (command : String) (auto_confirm args_yes : Bool) (fs : FS)
    (hrAnswer delAnswer : String) : List RmEvent :=
  if rm_target command = [] then [RmEvent.errNoTarget]
  else if (rm_gate (rm_high_risk_pattern command) (auto_confirm || args_yes) hrAnswer).2
      = false then
    (rm_gate (rm_high_risk_pattern command) (auto_confirm || args_yes) hrAnswer).1
  else
    (rm_gate (rm_high_risk_pattern command) (auto_confirm || args_yes) hrAnswer).1 ++
      rm_body command (auto_confirm || args_yes) fs delAnswer

/-- A filesystem with no entries at all. -/
def emptyFS : FS :=
  { isDir := fun _ => false, isFile := fun _ => false, pathExists := fun _ => false,
    rmtree := fun _ => .ok, remove := fun _ => .ok }

/-- C4, counterexample: `rm -rf ghost` on an empty filesystem.  The
high-risk confirmation prompt (event 0) is shown BEFORE the missing-target
error (event 1), refuting "no confirmation prompt ever precedes the
not-found report". -/
theorem C4_counterexample :
    handle_rm "rm -rf ghost" false false emptyFS "y" "" =
      [RmEvent.promptHighRisk, RmEvent.errDirNotFound ("f ghost".data)] := by
  decide

/-- C4 (amended): when the target does not exist on disk, `handle_rm`
never shows the per-target deletion confirmation (directory or file) and
never deletes anything — the missing-target error is reported instead;
but the high-risk-pattern confirmation (for `-rf`, `-r *`, `rd /s`,
`rmdir /s` substrings) is prompted BEFORE the existence check, so it can
precede the not-found report. -/
theorem C4_missing_target_no_delete_prompt (command : String)
    (auto_confirm args_yes : Bool) (fs : FS) (hrAnswer delAnswer : String)
    (t : List Char)
    (hdir : ∀ p, fs.isDir p = false)
    (hfile : ∀ p, fs.isFile p = false)
    (hex : ∀ p, fs.pathExists p = false)
    (htarget : rm_target command ≠ [])
    (hgate : rm_high_risk_pattern command = false ∨ (auto_confirm || args_yes) = true ∨
      lowerList hrAnswer.data = "y".data) :
    RmEvent.promptDeleteDir t ∉ handle_rm command auto_confirm args_yes fs hrAnswer delAnswer
    ∧ RmEvent.promptDeleteFile t ∉ handle_rm command auto_confirm args_yes fs hrAnswer delAnswer
    ∧ RmEvent.deleteTree t ∉ handle_rm command auto_confirm args_yes fs hrAnswer delAnswer
    ∧ RmEvent.deleteFile t ∉ handle_rm command auto_confirm args_yes fs hrAnswer delAnswer
    ∧ (RmEvent.errDirNotFound (rm_dir_target command)
         ∈ handle_rm command auto_confirm args_yes fs hrAnswer delAnswer
       ∨ RmEvent.errFileNotFound (rm_target command)
         ∈ handle_rm command auto_confirm args_yes fs hrAnswer delAnswer) := by
  have hbody : rm_body command (auto_confirm || args_yes) fs delAnswer =
      if fs.isDir (rm_target command) || substrB "-r".data command.data then
        [RmEvent.errDirNotFound (rm_dir_target command)]
      else [RmEvent.errFileNotFound (rm_target command)] := by
    unfold rm_body
    simp only [hdir, hex, hfile, Bool.false_or]
    by_cases hr : substrB "-r".data command.data = true
    · simp [hr]
    · simp [hr]
  have hg : (rm_gate (rm_high_risk_pattern command) (auto_confirm || args_yes) hrAnswer).2 = true
      ∧ ((rm_gate (rm_high_risk_pattern command) (auto_confirm || args_yes) hrAnswer).1 = []
         ∨ (rm_gate (rm_high_risk_pattern command) (auto_confirm || args_yes) hrAnswer).1 =
             [RmEvent.promptHighRisk]) := by
    unfold rm_gate
    by_cases hp : rm_high_risk_pattern command = true
    · by_cases hauto : (auto_confirm || args_yes) = true
      · simp [hp, hauto]
      · rcases hgate with h | h | h
        · rw [hp] at h; exact absurd h (by simp)
        · exact absurd h hauto
        · simp [hp, hauto, h]
    · simp [hp]
  have hrm : handle_rm command auto_confirm args_yes fs hrAnswer delAnswer =
      (rm_gate (rm_high_risk_pattern command) (auto_confirm || args_yes) hrAnswer).1 ++
        rm_body command (auto_confirm || args_yes) fs delAnswer := by
    unfold handle_rm
    rw [if_neg htarget]
    simp [hg.1]
  rw [hrm, hbody]
  rcases hg.2 with h1 | h1 <;> rw [h1] <;>
    by_cases hc : (fs.isDir (rm_target command) || substrB "-r".data command.data) = true <;>
      simp [hc]

/-- Witness for `C4_missing_target_no_delete_prompt` on `rm ghost` over an
empty filesystem. -/
theorem C4_missing_target_no_delete_prompt_witness :
    RmEvent.promptDeleteDir ("x".data) ∉ handle_rm "rm ghost" false false emptyFS "" ""
    ∧ RmEvent.promptDeleteFile ("x".data) ∉ handle_rm "rm ghost" false false emptyFS "" ""
    ∧ RmEvent.deleteTree ("x".data) ∉ handle_rm "rm ghost" false false emptyFS "" ""
    ∧ RmEvent.deleteFile ("x".data) ∉ handle_rm "rm ghost" false false emptyFS "" ""
    ∧ (RmEvent.errDirNotFound (rm_dir_target "rm ghost")
         ∈ handle_rm "rm ghost" false false emptyFS "" ""
       ∨ RmEvent.errFileNotFound (rm_target "rm ghost")
         ∈ handle_rm "rm ghost" false false emptyFS "" "") :=
  C4_missing_target_no_delete_prompt "rm ghost" false false emptyFS "" "" ("x".data)
    (fun _ => rfl) (fun _ => rfl) (fun _ => rfl) (by decide) (Or.inl (by decide))

/-- Every event of `handle_rm` comes from the empty-target error, the
high-risk gate, or the deletion body. -/
theorem handle_rm_mem (command : String) (auto_confirm args_yes : Bool) (fs : FS)
    (hrAnswer delAnswer : String) (e : RmEvent)
    (he : e ∈ handle_rm command auto_confirm args_yes fs hrAnswer delAnswer) :
    e = RmEvent.errNoTarget
    ∨ e ∈ (rm_gate (rm_high_risk_pattern command) (auto_confirm || args_yes) hrAnswer).1
    ∨ e ∈ rm_body command (auto_confirm || args_yes) fs delAnswer := by
  unfold handle_rm at he
  split at he
  · simp at he
    exact Or.inl he
  · split at he
    · exact Or.inr (Or.inl he)
    · rcases List.mem_append.mp he with h | h
      · exact Or.inr (Or.inl h)
      · exact Or.inr (Or.inr h)

/-- The high-risk gate only emits its prompt and its cancel message. -/
theorem rm_gate_mem (p a : Bool) (ans : String) (e : RmEvent)
    (he : e ∈ (rm_gate p a ans).1) :
    e = RmEvent.promptHighRisk ∨ e = RmEvent.msgHighRiskCancelled := by
  unfold rm_gate at he
  repeat' split at he
  all_goals simp_all

/-- In directory mode every body event concerns `rm_dir_target`. -/
theorem rm_body_dir_mem (command : String) (autoYes : Bool) (fs : FS) (delAnswer : String)
    (hc : (fs.isDir (rm_target command) || substrB "-r".data command.data) = true)
    (e : RmEvent) (he : e ∈ rm_body command autoYes fs delAnswer) :
    e = RmEvent.errDirNotFound (rm_dir_target command)
    ∨ e = RmEvent.msgAutoConfirm (rm_dir_target command)
    ∨ e = RmEvent.promptDeleteDir (rm_dir_target command)
    ∨ e = RmEvent.msgCancelled
    ∨ e = RmEvent.deleteTree (rm_dir_target command)
    ∨ e = RmEvent.msgDirDeleted (rm_dir_target command)
    ∨ e = RmEvent.errDeletePermission (rm_dir_target command)
    ∨ (∃ m, e = RmEvent.errDeleteFailed (rm_dir_target command) m) := by
  unfold rm_body rm_confirm_dir at he
  rw [if_pos hc] at he
  repeat' split at he
  all_goals simp_all
  all_goals tauto

/-- In file mode every body event concerns `rm_target`. -/
theorem rm_body_file_mem (command : String) (autoYes : Bool) (fs : FS) (delAnswer : String)
    (hc : (fs.isDir (rm_target command) || substrB "-r".data command.data) = false)
    (e : RmEvent) (he : e ∈ rm_body command autoYes fs delAnswer) :
    e = RmEvent.errFileNotFound (rm_target command)
    ∨ e = RmEvent.msgAutoConfirm (rm_target command)
    ∨ e = RmEvent.promptDeleteFile (rm_target command)
    ∨ e = RmEvent.msgCancelled
    ∨ e = RmEvent.deleteFile (rm_target command)
    ∨ e = RmEvent.msgFileDeleted (rm_target command)
    ∨ e = RmEvent.errDeletePermission (rm_target command)
    ∨ (∃ m, e = RmEvent.errDeleteFailed (rm_target command) m) := by
  unfold rm_body rm_confirm_file at he
  rw [if_neg (by simp [hc])] at he
  repeat' split at he
  all_goals simp_all
  all_goals tauto

/-- C5 (amended): directory (recursive) deletion mode is selected exactly
when the target is already a directory or the two-character SUBSTRING
`-r` occurs anywhere in the raw line (not a whitespace-delimited token);
and the path passed to deletion is NOT the given path unchanged: every
`shutil.rmtree` call receives `target.replace("-r", "").strip()`, and
every `os.remove` call receives `command[3:].strip()`. -/
theorem C5_rm_deletion_targets (command : String) (auto_confirm args_yes : Bool)
    (fs : FS) (hrAnswer delAnswer : String) (t : List Char) :
    (RmEvent.deleteTree t ∈ handle_rm command auto_confirm args_yes fs hrAnswer delAnswer →
      t = rm_dir_target command)
    ∧ (RmEvent.deleteFile t ∈ handle_rm command auto_confirm args_yes fs hrAnswer delAnswer →
      t = rm_target command)
    ∧ (substrB "-r".data command.data = true →
      RmEvent.deleteFile t ∉ handle_rm command auto_confirm args_yes fs hrAnswer delAnswer)
    ∧ ((fs.isDir (rm_target command) || substrB "-r".data command.data) = false →
      RmEvent.deleteTree t ∉ handle_rm command auto_confirm args_yes fs hrAnswer delAnswer) := by
  refine ⟨?_, ?_, ?_, ?_⟩
  · intro hmem
    rcases handle_rm_mem command auto_confirm args_yes fs hrAnswer delAnswer _ hmem
      with h | h | h
    · simp at h
    · rcases rm_gate_mem _ _ _ _ h with h2 | h2 <;> simp at h2
    · by_cases hc : (fs.isDir (rm_target command) || substrB "-r".data command.data) = true
      · rcases rm_body_dir_mem command _ fs delAnswer hc _ h with
          h2 | h2 | h2 | h2 | h2 | h2 | h2 | ⟨m, h2⟩ <;> simp at h2
        exact h2
      · rcases rm_body_file_mem command _ fs delAnswer (by simpa using hc) _ h with
          h2 | h2 | h2 | h2 | h2 | h2 | h2 | ⟨m, h2⟩ <;> simp at h2
  · intro hmem
    rcases handle_rm_mem command auto_confirm args_yes fs hrAnswer delAnswer _ hmem
      with h | h | h
    · simp at h
    · rcases rm_gate_mem _ _ _ _ h with h2 | h2 <;> simp at h2
    · by_cases hc : (fs.isDir (rm_target command) || substrB "-r".data command.data) = true
      · rcases rm_body_dir_mem command _ fs delAnswer hc _ h with
          h2 | h2 | h2 | h2 | h2 | h2 | h2 | ⟨m, h2⟩ <;> simp at h2
      · rcases rm_body_file_mem command _ fs delAnswer (by simpa using hc) _ h with
          h2 | h2 | h2 | h2 | h2 | h2 | h2 | ⟨m, h2⟩ <;> simp at h2
        exact h2
  · intro hsub hmem
    rcases handle_rm_mem command auto_confirm args_yes fs hrAnswer delAnswer _ hmem
      with h | h | h
    · simp at h
    · rcases rm_gate_mem _ _ _ _ h with h2 | h2 <;> simp at h2
    · have hc : (fs.isDir (rm_target command) || substrB "-r".data command.data) = true := by
        simp [hsub]
      rcases rm_body_dir_mem command _ fs delAnswer hc _ h with
        h2 | h2 | h2 | h2 | h2 | h2 | h2 | ⟨m, h2⟩ <;> simp at h2
  · intro hc hmem
    rcases handle_rm_mem command auto_confirm args_yes fs hrAnswer delAnswer _ hmem
      with h | h | h
    · simp at h
    · rcases rm_gate_mem _ _ _ _ h with h2 | h2 <;> simp at h2
    · rcases rm_body_file_mem command _ fs delAnswer hc _ h with
        h2 | h2 | h2 | h2 | h2 | h2 | h2 | ⟨m, h2⟩ <;> simp at h2

/-- A filesystem containing exactly the path `myepo` (as a directory). -/
def replaceFS : FS :=
  { isDir := fun p => p == "myepo".data, isFile := fun _ => false,
    pathExists := fun p => p == "myepo".data,
    rmtree := fun _ => .ok, remove := fun _ => .ok }

/-- C5, counterexample: `rm -r my-repo` (auto-confirmed) deletes the path
`myepo` — `replace("-r", "")` also mangles the `-r` inside the file name
`my-repo` — and never touches the given path `my-repo`, refuting "the
target path passed to deletion is the given path unchanged". -/
theorem C5_counterexample :
    RmEvent.deleteTree ("myepo".data) ∈ handle_rm "rm -r my-repo" true false replaceFS "y" "y"
    ∧ RmEvent.deleteTree ("my-repo".data) ∉ handle_rm "rm -r my-repo" true false replaceFS "y" "y"
    ∧ "myepo".data ≠ "my-repo".data := by
  decide

/-- Witness for `C5_rm_deletion_targets` at `rm -r my-repo`. -/
theorem C5_rm_deletion_targets_witness :
    ("myepo".data = rm_dir_target "rm -r my-repo")
    ∧ RmEvent.deleteFile ("my-repo".data) ∉
        handle_rm "rm -r my-repo" true false replaceFS "y" "y" := by
  constructor
  · exact (C5_rm_deletion_targets "rm -r my-repo" true false replaceFS "y" "y"
      ("myepo".data)).1 (by decide)
  · exact (C5_rm_deletion_targets "rm -r my-repo" true false replaceFS "y" "y"
      ("my-repo".data)).2.2.1 (by decide)

end PyTerminal
